import Mathlib

/-!
Verification of the asset-level dashboard (`src/app.py`).

The nine numeric widget inputs are modelled as rationals; each Python
expression `e / d if d else np.nan` is modelled as an `Option ℚ` that is
`none` exactly when the denominator is zero (the NaN sentinel).
-/

/-- The nine editable scalar inputs of the sidebar (app.py lines 77-85). -/
structure Inputs where
  total_hoa : ℚ
  insurance : ℚ
  property_tax : ℚ
  opex_total : ℚ
  capex_total : ℚ
  capex_rec : ℚ
  estimated_rent : ℚ
  market_value : ℚ
  rental_collection_pct : ℚ
deriving DecidableEq, Repr

/-- app.py line 126: `net_revenue_ltm = estimated_rent * (rental_collection_pct / 100)`. -/
def net_revenue_ltm (i : Inputs) : ℚ :=
  i.estimated_rent * (i.rental_collection_pct / 100)

/-- app.py line 127: gross yield, NaN when `market_value` is falsy (zero). -/
def gross_yield_pct (i : Inputs) : Option ℚ :=
  if i.market_value ≠ 0 then
    some ((net_revenue_ltm i - i.total_hoa - i.insurance - i.property_tax) / i.market_value)
  else none

/-- app.py line 128: `noi_ltm = net_revenue_ltm - opex_total`. -/
def noi_ltm (i : Inputs) : ℚ := net_revenue_ltm i - i.opex_total

/-- app.py line 129. -/
def economic_noi_ltm (i : Inputs) : ℚ := net_revenue_ltm i - i.opex_total - i.capex_total

/-- app.py line 130. -/
def all_in_noi_ltm (i : Inputs) : ℚ :=
  net_revenue_ltm i - i.opex_total - i.capex_total - i.capex_rec

/-- app.py line 131: NaN when `net_revenue_ltm` is zero. -/
def noi_margin_ltm (i : Inputs) : Option ℚ :=
  if net_revenue_ltm i ≠ 0 then some (noi_ltm i / net_revenue_ltm i) else none

/-- app.py line 132. -/
def economic_noi_margin_ltm (i : Inputs) : Option ℚ :=
  if net_revenue_ltm i ≠ 0 then some (economic_noi_ltm i / net_revenue_ltm i) else none

/-- app.py line 133. -/
def all_in_noi_margin_ltm (i : Inputs) : Option ℚ :=
  if net_revenue_ltm i ≠ 0 then some (all_in_noi_ltm i / net_revenue_ltm i) else none

/-- app.py line 134: NaN when `market_value` is zero. -/
def noi_yield_ltm (i : Inputs) : Option ℚ :=
  if i.market_value ≠ 0 then some (noi_ltm i / i.market_value) else none

/-- app.py line 135. -/
def economic_noi_yield_ltm (i : Inputs) : Option ℚ :=
  if i.market_value ≠ 0 then some (economic_noi_ltm i / i.market_value) else none

/-- app.py line 136. -/
def all_in_noi_yield_ltm (i : Inputs) : Option ℚ :=
  if i.market_value ≠ 0 then some (all_in_noi_ltm i / i.market_value) else none

/-- The concrete example inputs of the spec's end-to-end test: the three
unmentioned expense fields default to zero. -/
def exampleInputs : Inputs :=
  { total_hoa := 2000, insurance := 1500, property_tax := 3000,
    opex_total := 0, capex_total := 0, capex_rec := 0,
    estimated_rent := 120000, market_value := 1000000,
    rental_collection_pct := 90 }

/-- C1: for every assignment of the nine input scalars, `net_revenue_ltm`
equals `estimated_rent * (rental_collection_pct / 100)`, and at the spec's
example inputs (rent 120000, collection 90 %, HOA 2000, insurance 1500,
tax 3000, market value 1000000) the net revenue is 108000 and the gross
yield is 0.1015. -/
theorem net_revenue_formula_and_example :
    (∀ i : Inputs, net_revenue_ltm i = i.estimated_rent * (i.rental_collection_pct / 100))
    ∧ net_revenue_ltm exampleInputs = 108000
    ∧ gross_yield_pct exampleInputs = some ((108000 - 2000 - 1500 - 3000) / 1000000)
    ∧ gross_yield_pct exampleInputs = some (1015 / 10000) := by
  refine ⟨fun i => rfl, ?_, ?_, ?_⟩ <;>
    norm_num [net_revenue_ltm, gross_yield_pct, exampleInputs]

/-- C2: no ratio ever raises on a zero denominator: with `market_value = 0`
the four yield outputs are the NaN sentinel, with `net_revenue = 0` the three
margin outputs are the NaN sentinel, and whenever the denominator is nonzero
the ratio is computed normally (the four difference outputs are always
total). -/
theorem division_by_zero_yields_nan (i : Inputs) :
    (i.market_value = 0 →
      gross_yield_pct i = none ∧ noi_yield_ltm i = none ∧
      economic_noi_yield_ltm i = none ∧ all_in_noi_yield_ltm i = none)
    ∧ (net_revenue_ltm i = 0 →
      noi_margin_ltm i = none ∧ economic_noi_margin_ltm i = none ∧
      all_in_noi_margin_ltm i = none)
    ∧ (i.market_value ≠ 0 →
      gross_yield_pct i =
        some ((net_revenue_ltm i - i.total_hoa - i.insurance - i.property_tax) / i.market_value) ∧
      noi_yield_ltm i = some (noi_ltm i / i.market_value) ∧
      economic_noi_yield_ltm i = some (economic_noi_ltm i / i.market_value) ∧
      all_in_noi_yield_ltm i = some (all_in_noi_ltm i / i.market_value))
    ∧ (net_revenue_ltm i ≠ 0 →
      noi_margin_ltm i = some (noi_ltm i / net_revenue_ltm i) ∧
      economic_noi_margin_ltm i = some (economic_noi_ltm i / net_revenue_ltm i) ∧
      all_in_noi_margin_ltm i = some (all_in_noi_ltm i / net_revenue_ltm i)) := by
  refine ⟨fun h => ?_, fun h => ?_, fun h => ?_, fun h => ?_⟩ <;>
    simp [gross_yield_pct, noi_yield_ltm, economic_noi_yield_ltm, all_in_noi_yield_ltm,
      noi_margin_ltm, economic_noi_margin_ltm, all_in_noi_margin_ltm, h]

/-- Closed instance of `division_by_zero_yields_nan`: at an input with zero
market value and zero estimated rent every ratio output is the NaN
sentinel. -/
theorem division_by_zero_yields_nan_witness :
    gross_yield_pct ⟨1, 1, 1, 1, 1, 1, 0, 0, 100⟩ = none ∧
    noi_margin_ltm ⟨1, 1, 1, 1, 1, 1, 0, 0, 100⟩ = none := by
  have h := division_by_zero_yields_nan ⟨1, 1, 1, 1, 1, 1, 0, 0, 100⟩
  exact ⟨(h.1 rfl).1, (h.2.1 (by norm_num [net_revenue_ltm])).1⟩

/-!
Text cleanup pass (app.py lines 11-21).

Each of the five `re.sub` calls matches two adjacent characters, the first
from a class `p` and the second from a class `q`, and rewrites the pair to
`first, space, second`; scanning is left to right and non-overlapping, so
after a match the scan resumes after the second character.  `subRule p q`
is that substitution on the character list of the string.  Character
classes are modelled over ASCII.
-/

/-- The whitespace class of the regex `\s` (ASCII part). -/
def isPySpace (c : Char) : Bool :=
  c == ' ' || c == '\t' || c == '\n' || c == '\r' || c == '\x0b' || c == '\x0c'

/-- The class `[.,!?]` of the first substitution. -/
def isPunctChar (c : Char) : Bool := c == '.' || c == ',' || c == '!' || c == '?'

/-- The class `[\(\)]`. -/
def isParenChar (c : Char) : Bool := c == '(' || c == ')'

/-- The class `[0-9]` of `\d`. -/
def isDigitChar (c : Char) : Bool := 48 ≤ c.toNat && c.toNat ≤ 57

/-- The class `[a-z]`. -/
def isLowerAZ (c : Char) : Bool := 97 ≤ c.toNat && c.toNat ≤ 122

/-- The class `[A-Z]`. -/
def isUpperAZ (c : Char) : Bool := 65 ≤ c.toNat && c.toNat ≤ 90

/-- The class `\w` (ASCII part: letter, digit or underscore). -/
def isWordCharB (c : Char) : Bool :=
  isDigitChar c || isLowerAZ c || isUpperAZ c || c == '_'

/-- One `re.sub(r"(P)(Q)", r"\1 \2", ·)` pass: left-to-right,
non-overlapping; after a match both matched characters are consumed. -/
def subRule (p q : Char → Bool) : List Char → List Char
  | [] => []
  | [c] => [c]
  | a :: b :: rest =>
    if p a && q b then a :: ' ' :: b :: subRule p q rest
    else a :: subRule p q (b :: rest)

/-- app.py line 13: space after `.,!?` when followed by a non-space. -/
def sub1 : List Char → List Char := subRule isPunctChar (fun c => !(isPySpace c))

/-- app.py line 15: space between a digit/word character and a parenthesis. -/
def sub2a : List Char → List Char := subRule (fun c => isDigitChar c || isWordCharB c) isParenChar

/-- app.py line 16: space between a parenthesis and a digit/word character. -/
def sub2b : List Char → List Char := subRule isParenChar (fun c => isDigitChar c || isWordCharB c)

/-- app.py line 18: space between a lowercase and an uppercase letter. -/
def sub3 : List Char → List Char := subRule isLowerAZ isUpperAZ

/-- app.py line 20: space between a period and an uppercase letter. -/
def sub4 : List Char → List Char := subRule (fun c => c == '.') isUpperAZ

/-- app.py lines 11-21: the five substitutions in their fixed order. -/
def clean_response_text (s : String) : String :=
  ⟨sub4 (sub3 (sub2b (sub2a (sub1 s.data))))⟩

/-- `subRule` keeps the head of the list. -/
theorem subRule_head (p q : Char → Bool) (a : Char) (l : List Char) :
    ∃ t, subRule p q (a :: l) = a :: t := by
  cases l with
  | nil => exact ⟨[], rfl⟩
  | cons b rest =>
    by_cases h : (p a && q b) = true
    · exact ⟨' ' :: b :: subRule p q rest, by simp [subRule, h]⟩
    · exact ⟨subRule p q (b :: rest), by simp [subRule, h]⟩

/-- No adjacent pair of the list matches the two classes. -/
def noMatch (p q : Char → Bool) : List Char → Prop
  | [] => True
  | [_] => True
  | a :: b :: rest => (p a && q b) = false ∧ noMatch p q (b :: rest)

theorem noMatch_cons {p q : Char → Bool} {x : Char} {l : List Char}
    (hx : p x = false) (hl : noMatch p q l) : noMatch p q (x :: l) := by
  cases l with
  | nil => trivial
  | cons y t => exact ⟨by simp [hx], hl⟩

theorem noMatch_tail {p q : Char → Bool} {x : Char} {l : List Char}
    (h : noMatch p q (x :: l)) : noMatch p q l := by
  cases l with
  | nil => trivial
  | cons y t => exact h.2

/-- After one pass of `subRule p q` no match remains, provided the space
character belongs to neither class and the classes cannot chain (a
character of `q` is never a character of `p`). -/
theorem subRule_noMatch {p q : Char → Bool}
    (hp : p ' ' = false) (hq : q ' ' = false)
    (hdisj : ∀ c, q c = true → p c = false) :
    ∀ l, noMatch p q (subRule p q l) := by
  intro l
  induction l using subRule.induct p q with
  | case1 => trivial
  | case2 c => trivial
  | case3 a b rest h ih =>
    rw [subRule, if_pos h]
    have hpb : p b = false := hdisj b (Bool.and_elim_right h)
    exact ⟨by simp [hq], noMatch_cons hp (noMatch_cons hpb ih)⟩
  | case4 a b rest h ih =>
    rw [subRule, if_neg h]
    obtain ⟨t, ht⟩ := subRule_head p q b rest
    rw [ht] at ih ⊢
    exact ⟨Bool.eq_false_iff.mpr h, ih⟩

/-- A list with no match is a fixed point of `subRule`. -/
theorem subRule_eq_of_noMatch {p q : Char → Bool} :
    ∀ {l : List Char}, noMatch p q l → subRule p q l = l := by
  intro l
  induction l using subRule.induct p q with
  | case1 => intro _; rfl
  | case2 c => intro _; rfl
  | case3 a b rest h ih =>
    intro hnm
    exact absurd h (by simp [hnm.1])
  | case4 a b rest h ih =>
    intro hnm
    rw [subRule, if_neg h, ih hnm.2]

/-- One `subRule` pass is idempotent when space is in neither class and the
classes cannot chain. -/
theorem subRule_idem {p q : Char → Bool}
    (hp : p ' ' = false) (hq : q ' ' = false)
    (hdisj : ∀ c, q c = true → p c = false) (l : List Char) :
    subRule p q (subRule p q l) = subRule p q l :=
  subRule_eq_of_noMatch (subRule_noMatch hp hq hdisj l)

/-- Applying any space-inserting pass preserves the absence of matches of a
rule whose classes both exclude the space character. -/
theorem noMatch_subRule_preserve {p q p' q' : Char → Bool}
    (hp : p ' ' = false) (hq : q ' ' = false) :
    ∀ l, noMatch p q l → noMatch p q (subRule p' q' l) := by
  intro l
  induction l using subRule.induct p' q' with
  | case1 => intro _; trivial
  | case2 c => intro _; trivial
  | case3 a b rest h ih =>
    intro hnm
    rw [subRule, if_pos h]
    have hbr : noMatch p q (b :: rest) := hnm.2
    have h1 : noMatch p q (b :: subRule p' q' rest) := by
      cases rest with
      | nil => trivial
      | cons c t =>
        obtain ⟨t', ht'⟩ := subRule_head p' q' c t
        rw [ht']
        exact ⟨hbr.1, ht' ▸ ih (noMatch_tail hbr)⟩
    exact ⟨by simp [hq], noMatch_cons hp h1⟩
  | case4 a b rest h ih =>
    intro hnm
    rw [subRule, if_neg h]
    obtain ⟨t, ht⟩ := subRule_head p' q' b rest
    rw [ht]
    exact ⟨hnm.1, ht ▸ ih hnm.2⟩

/-- A word or digit character is never a parenthesis. -/
theorem word_not_paren {c : Char} (hc : (isDigitChar c || isWordCharB c) = true) :
    isParenChar c = false := by
  cases hpar : isParenChar c with
  | false => rfl
  | true =>
    exfalso
    simp only [isParenChar, Bool.or_eq_true, beq_iff_eq] at hpar
    rcases hpar with h | h <;> subst h <;> exact absurd hc (by decide)

/-- A parenthesis is never a word or digit character. -/
theorem paren_not_word {c : Char} (hc : isParenChar c = true) :
    (isDigitChar c || isWordCharB c) = false := by
  simp only [isParenChar, Bool.or_eq_true, beq_iff_eq] at hc
  rcases hc with h | h <;> subst h <;> rfl

/-- An uppercase letter is never lowercase. -/
theorem upper_not_lower {c : Char} (hc : isUpperAZ c = true) : isLowerAZ c = false := by
  simp [isUpperAZ] at hc
  simp [isLowerAZ]
  omega

/-- An uppercase letter is never a period. -/
theorem upper_not_period {c : Char} (hc : isUpperAZ c = true) : (c == '.') = false := by
  rw [beq_eq_false_iff_ne]
  rintro rfl
  exact absurd hc (by decide)

/-- C4 (counterexample): on the input `"Hi.There(5)bigBad"` the cleanup pass
does not return the spec's `"Hi. There (5) big Bad"`: the paren rules of
lines 15-16 also fire inside the parentheses. -/
theorem cleanup_example_ne_spec :
    clean_response_text "Hi.There(5)bigBad" ≠ "Hi. There (5) big Bad" := by
  decide

/-- C4 (amended): on the input `"Hi.There(5)bigBad"` the cleanup pass
returns `"Hi. There ( 5 ) big Bad"` — the digit is also separated from both
parentheses. -/
theorem cleanup_example_value :
    clean_response_text "Hi.There(5)bigBad" = "Hi. There ( 5 ) big Bad" := by
  decide

/-- C5 (counterexample): the first substitution rule is not idempotent in
isolation: on `"..a"` one pass gives `". .a"` and a second pass gives
`". . a"`, because the second period is consumed as the non-space group of
the first match and never re-examined. -/
theorem rule1_not_idempotent :
    sub1 (sub1 ('.' :: '.' :: 'a' :: [])) ≠ sub1 ('.' :: '.' :: 'a' :: []) := by
  decide

/-- C5 (amended): the substitution rules other than the first are
idempotent in isolation — each paren direction, their ordered composition
(the spec's rule 2), the lowercase-uppercase rule and the period-uppercase
rule — but the punctuation rule 1 is not idempotent in isolation. -/
theorem cleanup_rules_idempotence :
    (∀ l, sub2a (sub2a l) = sub2a l)
    ∧ (∀ l, sub2b (sub2b l) = sub2b l)
    ∧ (∀ l, sub2b (sub2a (sub2b (sub2a l))) = sub2b (sub2a l))
    ∧ (∀ l, sub3 (sub3 l) = sub3 l)
    ∧ (∀ l, sub4 (sub4 l) = sub4 l)
    ∧ ¬(∀ l, sub1 (sub1 l) = sub1 l) := by
  have h2a : ∀ l, sub2a (sub2a l) = sub2a l := fun l =>
    subRule_idem (by decide) (by decide) (fun c hc => paren_not_word hc) l
  have h2b : ∀ l, sub2b (sub2b l) = sub2b l := fun l =>
    subRule_idem (by decide) (by decide) (fun c hc => word_not_paren hc) l
  refine ⟨h2a, h2b, fun l => ?_, fun l => ?_, fun l => ?_, fun h => ?_⟩
  · have hnm : noMatch (fun c => isDigitChar c || isWordCharB c) isParenChar (sub2a l) :=
      subRule_noMatch (by decide) (by decide) (fun c hc => paren_not_word hc) l
    have hnm2 : noMatch (fun c => isDigitChar c || isWordCharB c) isParenChar
        (sub2b (sub2a l)) :=
      noMatch_subRule_preserve (by decide) (by decide) _ hnm
    have h3 : sub2a (sub2b (sub2a l)) = sub2b (sub2a l) := subRule_eq_of_noMatch hnm2
    rw [h3, h2b]
  · exact subRule_idem (by decide) (by decide) (fun c hc => upper_not_lower hc) l
  · exact subRule_idem (by decide) (by decide) (fun c hc => upper_not_period hc) l
  · exact absurd (h ('.' :: '.' :: 'a' :: [])) (by decide)

/-- A substitution pass preserves the subsequence of non-whitespace
characters: it only ever inserts the space character. -/
theorem subRule_filter (p q : Char → Bool) (l : List Char) :
    (subRule p q l).filter (fun c => !(isPySpace c)) = l.filter (fun c => !(isPySpace c)) := by
  induction l using subRule.induct p q with
  | case1 => rfl
  | case2 c => rfl
  | case3 a b rest h ih =>
    rw [subRule, if_pos h]
    simp only [List.filter_cons, ih]
    rfl
  | case4 a b rest h ih =>
    rw [subRule, if_neg h]
    simp only [List.filter_cons, ih]

/-- A substitution pass never shortens the list. -/
theorem subRule_length (p q : Char → Bool) (l : List Char) :
    l.length ≤ (subRule p q l).length := by
  induction l using subRule.induct p q with
  | case1 => exact Nat.le_refl _
  | case2 c => exact Nat.le_refl _
  | case3 a b rest h ih =>
    rw [subRule, if_pos h]
    simp only [List.length_cons]
    omega
  | case4 a b rest h ih =>
    rw [subRule, if_neg h]
    simp only [List.length_cons] at ih ⊢
    omega

/-- C9: the cleanup pass only inserts space characters: the sequence of
non-whitespace characters of the output equals that of the input (no
character is deleted, altered or reordered), and the output is at least as
long as the input. -/
theorem cleanup_only_inserts_spaces (s : String) :
    (clean_response_text s).data.filter (fun c => !(isPySpace c)) =
      s.data.filter (fun c => !(isPySpace c))
    ∧ s.length ≤ (clean_response_text s).length := by
  constructor
  · show (sub4 (sub3 (sub2b (sub2a (sub1 s.data))))).filter _ = _
    simp only [sub1, sub2a, sub2b, sub3, sub4]
    rw [subRule_filter, subRule_filter, subRule_filter, subRule_filter, subRule_filter]
  · show s.data.length ≤ (sub4 (sub3 (sub2b (sub2a (sub1 s.data))))).length
    simp only [sub1, sub2a, sub2b, sub3, sub4]
    calc s.data.length ≤ (subRule isPunctChar (fun c => !(isPySpace c)) s.data).length :=
          subRule_length _ _ _
      _ ≤ _ := Nat.le_trans (subRule_length _ _ _)
            (Nat.le_trans (subRule_length _ _ _)
              (Nat.le_trans (subRule_length _ _ _) (subRule_length _ _ _)))

/-!
Session state and the reset logic of the render pass (app.py lines 64-117),
and the chat-response handling (app.py lines 314-335).
-/

/-- A role-tagged transcript entry of `st.session_state.messages`. -/
structure ChatMessage where
  role : String
  content : String
deriving DecidableEq, Repr

/-- The value of the `inputs` key of the session state: absent before the
first render, the empty dict `{}` right after a property change (line 69),
or the stored snapshot of the nine widget values. -/
inductive InputsStore where
  | absent : InputsStore
  | emptyDict : InputsStore
  | vals : Inputs → InputsStore
deriving DecidableEq

/-- The session-state fields touched by the reset logic. -/
structure DashState where
  messages : List ChatMessage
  inputs : InputsStore
  lastSelected : Option String
  scroll : Option String
deriving DecidableEq

/-- One render pass through app.py lines 64-117, stopping where the code
calls `st.rerun()`: initialize `last_selected_property` (lines 64-65), clear
everything on a property change (lines 67-72), seed the `inputs` snapshot if
absent (lines 88-99), and clear the transcript when the current widget
values differ from the snapshot (lines 113-117).  `selected` is the
selectbox value and `widget` the nine sidebar values of this pass. -/
def renderPass (st : DashState) (selected : String) (widget : Inputs) : DashState :=
  let st1 := if st.lastSelected = none then { st with lastSelected := some selected } else st
  if st1.lastSelected ≠ some selected then
    { st1 with messages := [], inputs := .emptyDict, lastSelected := some selected,
               scroll := some "outputs" }
  else
    let st2 := if st1.inputs = .absent then { st1 with inputs := .vals widget } else st1
    if st2.inputs ≠ .vals widget then
      { st2 with messages := [], inputs := .vals widget, scroll := some "outputs" }
    else st2

/-- C3: the reset rules of the render pass: (a) whenever the nine widget
values differ from the stored snapshot, the pass clears the transcript;
(b) whenever a property different from the last selected one is chosen, the
pass clears the transcript, resets the stored inputs to the empty dict and
records the new property, and the rerun it triggers (with the widgets
re-seeded from the new property's record) stores that record as the new
snapshot with the transcript still empty. -/
theorem reset_on_input_or_property_change (st : DashState) (selected : String)
    (widget record prev : Inputs) :
    (st.inputs = .vals prev → prev ≠ widget →
      (renderPass st selected widget).messages = [])
    ∧ (∀ p, st.lastSelected = some p → p ≠ selected →
      (renderPass st selected widget).messages = []
      ∧ (renderPass st selected widget).inputs = .emptyDict
      ∧ (renderPass st selected widget).lastSelected = some selected
      ∧ (renderPass (renderPass st selected widget) selected record).messages = []
      ∧ (renderPass (renderPass st selected widget) selected record).inputs = .vals record) := by
  constructor
  · intro hsnap hne
    have hne2 : InputsStore.vals prev ≠ .vals widget := by simpa using hne
    simp only [renderPass]
    split_ifs <;> simp_all
  · intro p hp hne
    have h0 : ¬(st.lastSelected = none) := by simp [hp]
    have hls : (st.lastSelected ≠ some selected) := by
      rw [hp]
      simpa using hne
    have hfirst : renderPass st selected widget =
        { st with messages := [], inputs := .emptyDict, lastSelected := some selected,
                  scroll := some "outputs" } := by
      simp only [renderPass, if_neg h0, if_pos hls]
    have hsecond : renderPass (renderPass st selected widget) selected record =
        { st with messages := [], inputs := .vals record, lastSelected := some selected,
                  scroll := some "outputs" } := by
      rw [hfirst]
      simp [renderPass]
    rw [hsecond, hfirst]
    exact ⟨rfl, rfl, rfl, rfl, rfl⟩

/-- Closed instance of `reset_on_input_or_property_change`: editing one
widget value clears a one-entry transcript, and selecting property "B"
while "A" was last selected empties the stored inputs. -/
theorem reset_on_input_or_property_change_witness :
    (renderPass ⟨[⟨"user", "q"⟩], .vals ⟨0, 0, 0, 0, 0, 0, 0, 0, 0⟩, some "A", none⟩
        "A" ⟨1, 0, 0, 0, 0, 0, 0, 0, 0⟩).messages = []
    ∧ (renderPass ⟨[⟨"user", "q"⟩], .vals ⟨0, 0, 0, 0, 0, 0, 0, 0, 0⟩, some "A", none⟩
        "B" ⟨1, 0, 0, 0, 0, 0, 0, 0, 0⟩).inputs = .emptyDict := by
  have ha := reset_on_input_or_property_change
    ⟨[⟨"user", "q"⟩], .vals ⟨0, 0, 0, 0, 0, 0, 0, 0, 0⟩, some "A", none⟩
    "A" ⟨1, 0, 0, 0, 0, 0, 0, 0, 0⟩ ⟨0, 0, 0, 0, 0, 0, 0, 0, 0⟩ ⟨0, 0, 0, 0, 0, 0, 0, 0, 0⟩
  have hb := reset_on_input_or_property_change
    ⟨[⟨"user", "q"⟩], .vals ⟨0, 0, 0, 0, 0, 0, 0, 0, 0⟩, some "A", none⟩
    "B" ⟨1, 0, 0, 0, 0, 0, 0, 0, 0⟩ ⟨0, 0, 0, 0, 0, 0, 0, 0, 0⟩ ⟨0, 0, 0, 0, 0, 0, 0, 0, 0⟩
  refine ⟨ha.1 rfl ?_, ((hb.2 "A" rfl (by decide)).2.1)⟩
  intro h
  rw [Inputs.mk.injEq] at h
  exact absurd h.1 (by norm_num)

/-- C10: when the widget values equal the stored snapshot and the selected
property equals the last selected one, neither reset branch fires: the
transcript, the stored inputs and the last-selected marker are unchanged by
the render pass. -/
theorem no_reset_when_unchanged (st : DashState) (selected : String) (widget : Inputs)
    (hsnap : st.inputs = .vals widget) (hls : st.lastSelected = some selected) :
    (renderPass st selected widget).messages = st.messages
    ∧ (renderPass st selected widget).inputs = st.inputs
    ∧ (renderPass st selected widget).lastSelected = st.lastSelected := by
  simp only [renderPass]
  split_ifs <;> simp_all

/-- Closed instance of `no_reset_when_unchanged` at a concrete state. -/
theorem no_reset_when_unchanged_witness :
    (renderPass ⟨[⟨"user", "q"⟩], .vals ⟨0, 0, 0, 0, 0, 0, 0, 0, 0⟩, some "A", none⟩
        "A" ⟨0, 0, 0, 0, 0, 0, 0, 0, 0⟩).messages = [⟨"user", "q"⟩] :=
  (no_reset_when_unchanged
    ⟨[⟨"user", "q"⟩], .vals ⟨0, 0, 0, 0, 0, 0, 0, 0, 0⟩, some "A", none⟩
    "A" ⟨0, 0, 0, 0, 0, 0, 0, 0, 0⟩ rfl rfl).1

/-!
Chat-response handling (app.py lines 314-335).
-/

/-- app.py line 318: the fixed fallback transcript entry. -/
def fallbackReply : String := "❌ Failed to get a response. Please try again later."

/-- app.py lines 314-318: the assistant entry appended to the transcript
after the HTTP call: the extracted completion text on status 200, the fixed
fallback otherwise. -/
def storeAssistantReply (msgs : List ChatMessage) (status : Nat) (reply : String) :
    List ChatMessage :=
  if status = 200 then msgs ++ [⟨"assistant", reply⟩]
  else msgs ++ [⟨"assistant", fallbackReply⟩]

/-- app.py lines 324-335: the text the reveal loop types out for a
transcript entry: assistant entries are passed through the cleanup pass at
display time, user entries are shown verbatim. -/
def displayedContent (m : ChatMessage) : String :=
  if m.role = "assistant" then clean_response_text m.content else m.content

/-- C6 (counterexample): on HTTP 200 the transcript entry stored for the
reply `"a.b"` holds the raw reply, which differs from its cleaned form
`"a. b"` — the cleanup pass is not applied before storage. -/
theorem stored_reply_is_not_cleaned :
    storeAssistantReply [] 200 "a.b" = [⟨"assistant", "a.b"⟩]
    ∧ storeAssistantReply [] 200 "a.b" ≠ [⟨"assistant", clean_response_text "a.b"⟩] := by
  exact ⟨rfl, by decide⟩

/-- C6 (amended): on HTTP 200 the stored transcript entry is the raw
completion text; the cleanup pass is applied at display time, when the
reveal loop types out `clean_response_text` of the stored content. -/
theorem stored_reply_raw_cleaned_on_display (msgs : List ChatMessage) (reply : String) :
    storeAssistantReply msgs 200 reply = msgs ++ [⟨"assistant", reply⟩]
    ∧ displayedContent ⟨"assistant", reply⟩ = clean_response_text reply := by
  exact ⟨rfl, rfl⟩

/-- C8: every non-200 status stores the same single fixed fallback entry,
independent of which non-200 status occurred. -/
theorem non_200_fixed_fallback (msgs : List ChatMessage) (status : Nat) (reply : String)
    (h : status ≠ 200) :
    storeAssistantReply msgs status reply = msgs ++ [⟨"assistant", fallbackReply⟩] := by
  simp [storeAssistantReply, h]

/-- Closed instance of `non_200_fixed_fallback` at status 404. -/
theorem non_200_fixed_fallback_witness :
    storeAssistantReply [] 404 "ignored" = [⟨"assistant", fallbackReply⟩] :=
  non_200_fixed_fallback [] 404 "ignored" (by decide)

/-!
ZIP-code normalization (app.py lines 29 and 35):
`astype(str).str.zfill(5).str.strip()` applied to each raw cell value —
note the stripping happens after the zero padding.
-/

/-- Python `str.zfill w`: left-pad with `'0'` to width `w`; a string at
least `w` long is returned unchanged, and a leading sign stays in front of
the inserted zeros. -/
def pyZfill (w : Nat) (s : List Char) : List Char :=
  if w ≤ s.length then s
  else
    match s with
    | [] => List.replicate w '0'
    | c :: t =>
      if c = '+' ∨ c = '-' then c :: (List.replicate (w - (t.length + 1)) '0' ++ t)
      else List.replicate (w - (t.length + 1)) '0' ++ (c :: t)

/-- Python `str.strip()`: remove leading and trailing whitespace. -/
def pyStrip (s : List Char) : List Char :=
  ((s.dropWhile isPySpace).reverse.dropWhile isPySpace).reverse

/-- One raw `ZipCode` cell after `zfill(5)` then `strip()`. -/
def normalizeZip (raw : String) : String :=
  ⟨pyStrip (pyZfill 5 raw.data)⟩

/-- C7 (counterexample): the raw value `"123 "` (trailing space) is padded
to `"0123 "` and only then stripped, yielding the 4-character `"0123"`: the
5-character invariant fails for raw values with surrounding whitespace. -/
theorem zip_normalization_not_always_five :
    normalizeZip "123 " = "0123" ∧ (normalizeZip "123 ").length = 4 := by
  decide

/-- Stripping a list with no whitespace characters is the identity. -/
theorem pyStrip_eq_self {l : List Char} (h : ∀ c ∈ l, isPySpace c = false) :
    pyStrip l = l := by
  unfold pyStrip
  have h1 : l.dropWhile isPySpace = l := by
    cases l with
    | nil => rfl
    | cons c t => simp [List.dropWhile_cons, h c (List.mem_cons_self c t)]
  rw [h1]
  have h2 : l.reverse.dropWhile isPySpace = l.reverse := by
    cases hr : l.reverse with
    | nil => rfl
    | cons c t =>
      have hc : c ∈ l := by
        rw [← List.mem_reverse, hr]
        exact List.mem_cons_self c t
      simp [List.dropWhile_cons, h c hc]
  rw [h2, List.reverse_reverse]

/-- A decimal digit is not a whitespace character. -/
theorem digit_not_space {c : Char} (hc : isDigitChar c = true) : isPySpace c = false := by
  cases hsp : isPySpace c with
  | false => rfl
  | true =>
    exfalso
    simp only [isPySpace, Bool.or_eq_true, beq_iff_eq] at hsp
    rcases hsp with ((((h | h) | h) | h) | h) | h <;> subst h <;>
      exact absurd hc (by decide)

/-- C7 (amended): a raw value of at most five characters consisting only of
digits is normalized to exactly five characters, left-zero-padded; the
invariant holds only for such values because the code strips after it
pads (see the counterexample with trailing whitespace). -/
theorem zip_normalization_five_chars (raw : String)
    (hdig : ∀ c ∈ raw.data, isDigitChar c = true) (hlen : raw.length ≤ 5) :
    (normalizeZip raw).data = List.replicate (5 - raw.length) '0' ++ raw.data
    ∧ (normalizeZip raw).length = 5 := by
  have hlen' : raw.data.length ≤ 5 := hlen
  have hz : pyZfill 5 raw.data = List.replicate (5 - raw.data.length) '0' ++ raw.data := by
    unfold pyZfill
    by_cases h5 : 5 ≤ raw.data.length
    · rw [if_pos h5]
      have h0 : 5 - raw.data.length = 0 := by omega
      rw [h0, List.replicate_zero, List.nil_append]
    · rw [if_neg h5]
      cases hd : raw.data with
      | nil => simp
      | cons c t =>
        have hc : isDigitChar c = true := hdig c (by rw [hd]; exact List.mem_cons_self c t)
        have hsign : ¬(c = '+' ∨ c = '-') := by
          rintro (rfl | rfl) <;> exact absurd hc (by decide)
        simp [hsign]
  have hns : ∀ c ∈ List.replicate (5 - raw.data.length) '0' ++ raw.data,
      isPySpace c = false := by
    intro c hc
    rcases List.mem_append.mp hc with h | h
    · rw [List.eq_of_mem_replicate h]
      rfl
    · exact digit_not_space (hdig c h)
  have hdata : (normalizeZip raw).data =
      List.replicate (5 - raw.data.length) '0' ++ raw.data := by
    show pyStrip (pyZfill 5 raw.data) = _
    rw [hz, pyStrip_eq_self hns]
  refine ⟨hdata, ?_⟩
  show (normalizeZip raw).data.length = 5
  rw [hdata]
  simp only [List.length_append, List.length_replicate]
  omega

/-- Closed instance of `zip_normalization_five_chars` at the raw value
`"123"`. -/
theorem zip_normalization_five_chars_witness :
    (normalizeZip "123").data = List.replicate (5 - "123".length) '0' ++ "123".data
    ∧ (normalizeZip "123").length = 5 :=
  zip_normalization_five_chars "123" (by decide) (by decide)
